import Mathlib

set_option maxHeartbeats 1000000
set_option maxRecDepth 2000

namespace ContentPipeline

/-- An RSS article record as assembled by fetch_news in main.py:
title, link, published date and truncated summary. -/
structure Article where
  title : String
  link : String
  published : String
  summary : String
deriving DecidableEq, Inhabited

/-- A generated content record, one entry of content_results in
analyze_with_claude: the source article plus the model text. -/
structure Draft where
  article : Article
  content : String
deriving DecidableEq

/-- JSON values as returned by json.loads on the relevance response text. -/
inductive Json where
  | jnull
  | jbool (b : Bool)
  | jint (n : Int)
  | jfloat (q : Rat)
  | jstr (s : String)
  | jarr (elems : List Json)
  | jobj (fields : List (String × Json))

/-- Python runtime errors that can escape the resolution list
comprehension at line 88 of main.py (it runs outside the try block). -/
inductive PyErr where
  | typeError
  | indexError
deriving DecidableEq

/-- Outcome of the guarded block of analyze_with_claude (lines 75-86):
the model call raised, json.loads raised on the response text, or a JSON
value was successfully parsed. -/
inductive FilterOutcome where
  | callError
  | badText
  | parsed (j : Json)

/-- Python len() applied to a parsed JSON value: defined for lists,
strings and objects, raises TypeError otherwise.  The len() call at
line 83 is inside the try block, so an undefined len triggers the
fallback branch. -/
def pyLen : Json → Option Nat
  | .jarr xs => some xs.length
  | .jstr s => some s.length
  | .jobj fs => some fs.length
  | _ => none

/-- Python iteration over the parsed value: list elements, the characters
of a string (each a one-character string), or the keys of an object. -/
def pyIterE : Json → Except PyErr (List Json)
  | .jarr xs => .ok xs
  | .jstr s => .ok (s.toList.map (fun c => Json.jstr (String.mk [c])))
  | .jobj fs => .ok (fs.map (fun p => Json.jstr p.1))
  | _ => .error .typeError

/-- Python comparison `i < len(articles)`: ints, bools (which are 0/1)
and floats compare against an int; other values raise TypeError. -/
def pyLtInt : Json → Nat → Option Bool
  | .jint n, N => some (decide (n < (N : Int)))
  | .jbool b, N => some (decide (((if b then 1 else 0) : Int) < (N : Int)))
  | .jfloat q, N => some (decide (q < (N : Rat)))
  | _, _ => none

/-- The effective position of Python index n into a list of length N:
negative indices count from the back. -/
def pyIndexOf (N : Nat) (n : Int) : Int := if n < 0 then (N : Int) + n else n

/-- Python indexing `articles[i]`: an int indexes from the front, a
negative int from the back, a bool as 0/1; anything else raises
TypeError; an int outside [-len, len) raises IndexError. -/
def pyGetItem (articles : List Article) : Json → Except PyErr Article
  | .jint n =>
      if 0 ≤ pyIndexOf articles.length n ∧
          pyIndexOf articles.length n < (articles.length : Int) then
        .ok (articles.getD (pyIndexOf articles.length n).toNat default)
      else .error .indexError
  | .jbool b =>
      if (if b then (1 : Int) else 0) < (articles.length : Int) then
        .ok (articles.getD (if b then (1 : Int) else 0).toNat default)
      else .error .indexError
  | _ => .error .typeError

/-- The list comprehension
`[articles[i] for i in relevant_indices if i < len(articles)]`
(line 88 of main.py), with Python error semantics: elements are
processed left to right, the guard is evaluated before the indexing, and
the first raised error aborts the whole comprehension. -/
def resolveList (articles : List Article) : List Json → Except PyErr (List Article)
  | [] => .ok []
  | e :: rest =>
    match pyLtInt e articles.length with
    | none => .error .typeError
    | some false => resolveList articles rest
    | some true =>
      match pyGetItem articles e with
      | .error err => .error err
      | .ok a =>
        match resolveList articles rest with
        | .error err => .error err
        | .ok tl => .ok (a :: tl)

/-- Resolution of the relevance index value to articles: iterate over the
Python value and run the guarded comprehension. -/
def resolveIndices (articles : List Article) (j : Json) : Except PyErr (List Article) :=
  match pyIterE j with
  | .error e => .error e
  | .ok elems => resolveList articles elems

/-- The fallback selection `[i for i in range(min(3, len(articles)))]`
built at line 86 of main.py. -/
def fallbackIndices (n : Nat) : Json :=
  Json.jarr ((List.range (min 3 n)).map (fun i : Nat => Json.jint (i : Int)))

/-- relevant_indices after the guarded block: the parsed value when the
model call, json.loads and the len() call all succeed, and the
deterministic fallback otherwise. -/
def relevantIndices (n : Nat) : FilterOutcome → Json
  | .callError => fallbackIndices n
  | .badText => fallbackIndices n
  | .parsed j =>
    match pyLen j with
    | none => fallbackIndices n
    | some _ => j

/-- The whole relevance-filter stage: guarded call and parse, then the
resolution comprehension (which runs outside the try block). -/
def filterStage (articles : List Article) (o : FilterOutcome) : Except PyErr (List Article) :=
  resolveIndices articles (relevantIndices articles.length o)

/-- A sample article used for concrete instantiations. -/
def articleEx : Article := ⟨"T", "L", "P", "S"⟩

/-- Sequence containment helper used to state what a rendered document
holds: hasPrefixSeq pat l is true when pat is an initial segment of l. -/
def hasPrefixSeq : List Char → List Char → Bool
  | [], _ => true
  | _ :: _, [] => false
  | p :: ps, c :: cs => p = c && hasPrefixSeq ps cs

/-- containsSeq pat l is true when pat occurs contiguously inside l. -/
def containsSeq (pat : List Char) : List Char → Bool
  | [] => hasPrefixSeq pat []
  | c :: cs => hasPrefixSeq pat (c :: cs) || containsSeq pat cs

/-- Python str.startswith, over the character sequences. -/
def strStarts (p s : String) : Bool := hasPrefixSeq p.toList s.toList

/-- The generation loop of analyze_with_claude (lines 116-167): one model
call per article of the capped list; the oracle gen gives each call's
result (none models a raised call).  A success appends a draft, a failure
skips the article; either way the loop continues.  Returns the articles
for which a call was issued, in order, and the collected drafts. -/
def genLoop (gen : Nat → Article → Option String) : Nat → List Article → List Article × List Draft
  | _, [] => ([], [])
  | i, a :: rest =>
    let p := genLoop gen (i + 1) rest
    match gen i a with
    | some c => (a :: p.1, ⟨a, c⟩ :: p.2)
    | none => (a :: p.1, p.2)

/-- The drafts produced by the generation step for a resolved
relevant-article list: the loop runs over relevant_articles[:max_articles]
(enumerate starts at 1). -/
def contentResults (gen : Nat → Article → Option String) (maxA : Nat)
    (relevant : List Article) : List Draft :=
  (genLoop gen 1 (relevant.take maxA)).2

/-- The "(Bahagian k)\n\n" marker prepended to chunks 2..n at line 225 of
main.py. -/
def partMarker (k : Nat) : List Char :=
  "(Bahagian ".toList ++ (toString k).toList ++ ")\n\n".toList

/-- Number of slices produced by range(0, L, 4000) for L > 0. -/
def numChunks (L : Nat) : Nat := (L + 3999) / 4000

/-- The chunk list `[content[i:i+4000] for i in range(0, len(content), 4000)]`
(line 218 of main.py). -/
def chunksBy4000 (content : List Char) : List (List Char) :=
  (List.range (numChunks content.length)).map
    (fun j => (content.drop (4000 * j)).take 4000)

/-- The messages variable of send_telegram (lines 215-218): the whole
document when it fits in 4000 units, its 4000-unit slices otherwise. -/
def splitMessages (content : List Char) : List (List Char) :=
  if content.length ≤ 4000 then [content] else chunksBy4000 content

/-- The per-message text of line 225: msg if msg_idx == 1 else the
part marker followed by msg, with msg_idx counting from k. -/
def addMarkers : Nat → List (List Char) → List (List Char)
  | _, [] => []
  | k, m :: rest => (if k = 1 then m else partMarker k ++ m) :: addMarkers (k + 1) rest

/-- The texts actually handed to the delivery call for one recipient, in
order. -/
def sentMessages (content : List Char) : List (List Char) :=
  addMarkers 1 (splitMessages content)

/-- Strip the part markers back off: the inverse view used to state the
reconstruction property. -/
def stripGo : Nat → List (List Char) → List (List Char)
  | _, [] => []
  | k, m :: rest => (if k = 1 then m else m.drop (partMarker k).length) :: stripGo (k + 1) rest

/-- The process environment read by send_telegram: the main
TELEGRAM_CHAT_ID variable and the numbered TELEGRAM_CHAT_ID_i variables. -/
structure TelegramEnv where
  main_chat_id : Option String
  numbered : Nat → Option String

/-- env_chat_ids of lines 180-189: the truthy numbered variables for
i in range(1, 10) in order, with the truthy main variable inserted at the
front. -/
def envChatIdList (env : TelegramEnv) : List String :=
  let nums := (List.range' 1 9).filterMap (fun i =>
    match env.numbered i with
    | some s => if s = "" then none else some s
    | none => none)
  match env.main_chat_id with
  | some c => if c = "" then nums else c :: nums
  | none => nums

/-- all_chat_ids of lines 192-195: environment ids then config ids,
keeping only truthy values that do not start with "CHAT_ID_". -/
def allChatIds (env : TelegramEnv) (config_ids : List String) : List String :=
  (envChatIdList env ++ config_ids).filter
    (fun cid => decide (cid ≠ "") && !(strStarts "CHAT_ID_" cid))

/-- The nested delivery loop of lines 213-235: for each chat id, every
message is posted; the status oracle gives each post's response status
code, which is only logged, so iteration never depends on it.  Returns
the ordered log of (chat id, text, status) for every attempted send. -/
def sendLoop (status : String → List Char → Nat) (content : List Char) :
    List String → List (String × List Char × Nat)
  | [] => []
  | cid :: rest =>
    (sentMessages content).map (fun m => (cid, m, status cid m)) ++
      sendLoop status content rest

/-- send_telegram given the document content: no sends without a bot
token or with an empty recipient list, otherwise the full nested loop. -/
def sendTelegram (bot_token : Option String) (env : TelegramEnv)
    (config_ids : List String) (status : String → List Char → Nat)
    (content : List Char) : List (String × List Char × Nat) :=
  match bot_token with
  | none => []
  | some _ =>
    if allChatIds env config_ids = [] then []
    else sendLoop status content (allChatIds env config_ids)

/-- The fixed header written by save_results (lines 252-254). -/
def reportHeader (ts : String) : List Char :=
  "# Gerakan Pengundi Sedar - Ringkasan Kandungan\n".toList ++
    ("**Dijana:** ".toList ++ ts.toList ++ " MYT\n\n".toList) ++
    "---\n\n".toList

/-- One section of the report (lines 257-259): the numbered title line,
the raw generated content, then the delimiter. -/
def sectionBlock (i : Nat) (d : Draft) : List Char :=
  "## 📰 Artikel ".toList ++ (toString i).toList ++ ": ".toList ++
    d.article.title.toList ++ "\n\n".toList ++
    d.content.toList ++ "\n\n---\n\n".toList

/-- The section loop of save_results, enumerating from i. -/
def sectionsFrom : Nat → List Draft → List Char
  | _, [] => []
  | i, d :: rest => sectionBlock i d ++ sectionsFrom (i + 1) rest

/-- The full document written by save_results: header then one section
per draft, enumerated from 1. -/
def renderReport (ts : String) (results : List Draft) : List Char :=
  reportHeader ts ++ sectionsFrom 1 results

/-- Externally visible actions of one run: the relevance model call, a
content-generation model call, the report file write, and a delivery
call. -/
inductive Event where
  | filterCall
  | genCall (a : Article)
  | fileWrite (doc : List Char)
  | deliver (chat : String) (msg : List Char)
deriving DecidableEq

/-- The run's external collaborators and configuration, fixed for one
invocation of main. -/
structure RunEnv where
  api_key : Option String
  outcome : FilterOutcome
  gen : Nat → Article → Option String
  max_articles : Nat
  bot_token : Option String
  tgEnv : TelegramEnv
  config_chat_ids : List String
  status : String → List Char → Nat
  ts : String

/-- analyze_with_claude as an event trace plus result: no events without
an API key; otherwise the filter call happens, resolution may raise (the
comprehension is outside the try block), an empty resolved list returns
None, and otherwise the generation loop runs over the capped list. -/
def analyzeWithClaude (o : RunEnv) (articles : List Article) :
    List Event × Except PyErr (Option (List Draft)) :=
  match o.api_key with
  | none => ([], .ok none)
  | some _ =>
    match filterStage articles o.outcome with
    | .error e => ([Event.filterCall], .error e)
    | .ok relevant =>
      if relevant = [] then ([Event.filterCall], .ok none)
      else
        let p := genLoop o.gen 1 (relevant.take o.max_articles)
        (Event.filterCall :: p.1.map Event.genCall, .ok (some p.2))

/-- save_results as an event trace: a falsy result list (None or empty)
writes nothing and sends nothing; otherwise the document is written and
then handed to send_telegram. -/
def saveResults (o : RunEnv) : Option (List Draft) → List Event
  | none => []
  | some [] => []
  | some (d :: ds) =>
    Event.fileWrite (renderReport o.ts (d :: ds)) ::
      (sendTelegram o.bot_token o.tgEnv o.config_chat_ids o.status
          (renderReport o.ts (d :: ds))).map
        (fun r => Event.deliver r.1 r.2.1)

/-- main (lines 276-297) as an event trace, given the fetched article
batch: an empty batch returns before any analysis; an unhandled error
from the analysis stage ends the run after the events already emitted;
otherwise save_results runs on the result. -/
def mainTrace (o : RunEnv) (articles : List Article) : List Event :=
  if articles = [] then []
  else
    match analyzeWithClaude o articles with
    | (evs, .error _) => evs
    | (evs, .ok results) => evs ++ saveResults o results

/-- Claim C6: when the relevance model call raises or its response fails
to parse, the selected index list is exactly [0, 1, ..., min(N, 3) - 1]
(fallback count K = 3, here as a JSON array of integers), and both
failure kinds produce the same list, so repeated failures are
deterministic. -/
theorem c6_fallback_indices (n : Nat) :
    relevantIndices n FilterOutcome.callError =
      Json.jarr ((List.range (min n 3)).map (fun i : Nat => Json.jint (i : Int))) ∧
    relevantIndices n FilterOutcome.badText =
      relevantIndices n FilterOutcome.callError := by
  constructor
  · simp [relevantIndices, fallbackIndices, Nat.min_comm]
  · rfl

lemma genLoop_sublist (gen : Nat → Article → Option String) :
    ∀ (l : List Article) (i : Nat),
      List.Sublist ((genLoop gen i l).2.map Draft.article) l := by
  intro l
  induction l with
  | nil => intro i; simp [genLoop]
  | cons a rest ih =>
    intro i
    cases h : gen i a with
    | some c => simpa [genLoop, h] using (ih (i + 1)).cons₂ a
    | none => simpa [genLoop, h] using (ih (i + 1)).cons a

/-- Claim C4: for a resolved relevant-article list and the configured
cap, at most min(len, cap) drafts are produced, the drafts' articles form
a sublist of the input (same relative order, even when some generation
calls fail), and every draft's article is an element of the input. -/
theorem c4_generator_bounds (gen : Nat → Article → Option String)
    (relevant : List Article) (maxA : Nat) :
    (contentResults gen maxA relevant).length ≤ min relevant.length maxA ∧
    List.Sublist ((contentResults gen maxA relevant).map Draft.article) relevant ∧
    ∀ d ∈ contentResults gen maxA relevant, d.article ∈ relevant := by
  have hsub : List.Sublist ((contentResults gen maxA relevant).map Draft.article)
      (relevant.take maxA) := genLoop_sublist gen (relevant.take maxA) 1
  have hsub2 := hsub.trans (List.take_sublist maxA relevant)
  refine ⟨?_, hsub2, ?_⟩
  · have h1 := hsub.length_le
    simpa [List.length_take, Nat.min_comm] using h1
  · intro d hd
    exact hsub2.subset (List.mem_map_of_mem Draft.article hd)

/-- C4 witness: a concrete instantiation of the membership part. -/
theorem c4_witness :
    (⟨articleEx, "C"⟩ : Draft).article ∈ [articleEx] :=
  (c4_generator_bounds (fun _ _ => some "C") [articleEx] 3).2.2
    ⟨articleEx, "C"⟩ (by decide)

lemma sendLoop_proj (status : String → List Char → Nat) (content : List Char) :
    ∀ ids : List String,
      (sendLoop status content ids).map (fun r => (r.1, r.2.1)) =
        ids.flatMap (fun cid => (sentMessages content).map (fun m => (cid, m))) := by
  intro ids
  induction ids with
  | nil => simp [sendLoop]
  | cons cid rest ih => simp [sendLoop, ih, List.map_map, Function.comp]

lemma sendLoop_length (status : String → List Char → Nat) (content : List Char) :
    ∀ ids : List String,
      (sendLoop status content ids).length = ids.length * (sentMessages content).length := by
  intro ids
  induction ids with
  | nil => simp [sendLoop]
  | cons cid rest ih =>
    simp [sendLoop, ih]
    ring

/-- Claim C1: with a bot token present, the dispatcher's attempted sends
are exactly one per (recipient, chunk) pair, in recipient-then-chunk
order, |R| × C in total; the status returned by each send is only
logged, so the attempted pairs are the same whatever the status oracle
answers. -/
theorem c1_dispatch_attempts (tk : String) (env : TelegramEnv)
    (config_ids : List String) (status : String → List Char → Nat)
    (content : List Char) :
    (sendTelegram (some tk) env config_ids status content).map (fun r => (r.1, r.2.1)) =
      (allChatIds env config_ids).flatMap
        (fun cid => (sentMessages content).map (fun m => (cid, m))) ∧
    (sendTelegram (some tk) env config_ids status content).length =
      (allChatIds env config_ids).length * (sentMessages content).length := by
  by_cases h : allChatIds env config_ids = []
  · simp [sendTelegram, h]
  · simp only [sendTelegram, if_neg h]
    exact ⟨sendLoop_proj status content _, sendLoop_length status content _⟩

lemma chunks_join_aux (k : Nat) : ∀ l : List Char, l.length ≤ 4000 * k →
    ((List.range k).map (fun j => (l.drop (4000 * j)).take 4000)).flatten = l := by
  induction k with
  | zero =>
    intro l hl
    have hl0 : l.length = 0 := by omega
    have hnil : l = [] := List.eq_nil_of_length_eq_zero hl0
    subst hnil
    simp
  | succ k ih =>
    intro l hl
    have hrec : ((List.range k).map
        (fun j => ((l.drop 4000).drop (4000 * j)).take 4000)).flatten = l.drop 4000 := by
      apply ih
      have hld := l.length_drop 4000
      omega
    rw [List.range_succ_eq_map, List.map_cons, List.map_map]
    have hmap : (List.range k).map ((fun j => (l.drop (4000 * j)).take 4000) ∘ Nat.succ)
        = (List.range k).map (fun j => ((l.drop 4000).drop (4000 * j)).take 4000) := by
      apply List.map_congr_left
      intro j _
      simp only [Function.comp_apply, List.drop_drop]
      congr 2
      omega
    rw [hmap]
    simp only [List.flatten_cons, hrec]
    simp [List.take_append_drop]

lemma chunksBy4000_join (content : List Char) : (chunksBy4000 content).flatten = content := by
  apply chunks_join_aux
  unfold numChunks
  omega

lemma chunksBy4000_mem_le (content : List Char) :
    ∀ m ∈ chunksBy4000 content, m.length ≤ 4000 := by
  intro m hm
  simp only [chunksBy4000, List.mem_map, List.mem_range] at hm
  obtain ⟨j, _, rfl⟩ := hm
  simp [List.length_take]

lemma stripGo_addMarkers : ∀ (l : List (List Char)) (k : Nat),
    stripGo k (addMarkers k l) = l := by
  intro l
  induction l with
  | nil => intro k; simp [addMarkers, stripGo]
  | cons m rest ih =>
    intro k
    by_cases hk : k = 1
    · simp [addMarkers, stripGo, hk, ih]
    · simp [addMarkers, stripGo, hk, ih, List.drop_left]

/-- Claim C5: a document of at most 4000 units is sent as one single
unprefixed message; a longer document is split into consecutive chunks of
at most 4000 units each, and stripping the part markers from messages
2..n and concatenating everything in order reconstructs the document
exactly. -/
theorem c5_chunk_reconstruct (content : List Char) :
    (content.length ≤ 4000 → sentMessages content = [content]) ∧
    (4000 < content.length →
      (∀ m ∈ chunksBy4000 content, m.length ≤ 4000) ∧
      (stripGo 1 (sentMessages content)).flatten = content) := by
  constructor
  · intro h
    simp [sentMessages, splitMessages, h, addMarkers]
  · intro h
    refine ⟨chunksBy4000_mem_le content, ?_⟩
    have hsplit : splitMessages content = chunksBy4000 content := by
      simp [splitMessages, Nat.not_le.mpr h]
    rw [sentMessages, hsplit, stripGo_addMarkers, chunksBy4000_join]

/-- C5 witness: both branches at concrete documents. -/
theorem c5_witness :
    ("ab".toList.length ≤ 4000 ∧ sentMessages "ab".toList = ["ab".toList]) ∧
    (4000 < (List.replicate 4001 'a').length ∧
      (∀ m ∈ chunksBy4000 (List.replicate 4001 'a'), m.length ≤ 4000) ∧
      (stripGo 1 (sentMessages (List.replicate 4001 'a'))).flatten =
        List.replicate 4001 'a') :=
  ⟨⟨by decide, (c5_chunk_reconstruct "ab".toList).1 (by decide)⟩,
   ⟨by simp only [List.length_replicate]; omega,
    (c5_chunk_reconstruct (List.replicate 4001 'a')).2
      (by simp only [List.length_replicate]; omega)⟩⟩

lemma partMarker_length (k : Nat) :
    (partMarker k).length = 13 + (toString k).toList.length := by
  have h1 : "(Bahagian ".toList.length = 10 := by decide
  have h2 : ")\n\n".toList.length = 3 := by decide
  simp [partMarker, List.length_append, h1, h2]
  omega

lemma addMarkers_getElem? : ∀ (l : List (List Char)) (k j : Nat),
    (addMarkers k l)[j]? =
      (l[j]?).map (fun m => if k + j = 1 then m else partMarker (k + j) ++ m) := by
  intro l
  induction l with
  | nil => intro k j; simp [addMarkers]
  | cons m rest ih =>
    intro k j
    cases j with
    | zero => simp [addMarkers]
    | succ j =>
      simp only [addMarkers, List.getElem?_cons_succ]
      rw [ih (k + 1) j]
      simp only [show k + 1 + j = k + (j + 1) from by omega]

lemma addMarkers_length : ∀ (l : List (List Char)) (k : Nat),
    (addMarkers k l).length = l.length := by
  intro l
  induction l with
  | nil => intro k; simp [addMarkers]
  | cons m rest ih => intro k; simp [addMarkers, ih]

lemma chunksBy4000_getElem? (content : List Char) (j : Nat) :
    (chunksBy4000 content)[j]? =
      if j < numChunks content.length then
        some ((content.drop (4000 * j)).take 4000)
      else none := by
  by_cases h : j < numChunks content.length
  · simp [chunksBy4000, List.getElem?_map, List.getElem?_range, h]
  · have hnone : (List.range (numChunks content.length))[j]? = none := by
      apply List.getElem?_eq_none
      simp only [List.length_range]
      omega
    simp only [chunksBy4000, List.getElem?_map, hnone, Option.map_none', if_neg h]

lemma chunksBy4000_length (content : List Char) :
    (chunksBy4000 content).length = numChunks content.length := by
  simp [chunksBy4000]

/-- C10 amended: for a document longer than 4000 units, every delivered
message except possibly the last one after the first is a full 4000-unit
chunk plus its part marker, hence strictly longer than 4000; and each
message at position j is bounded by 4000 plus the length of the part-j+1
marker, so the bound actually guaranteed per message is 4000 plus the
marker length, not 4000. -/
theorem c10_amended (content : List Char) (h : 4000 < content.length) :
    (∀ (j : Nat) (m : List Char), (sentMessages content)[j]? = some m →
      m.length ≤ 4000 + (partMarker (j + 1)).length) ∧
    (∀ (j : Nat) (m : List Char), 0 < j → j + 1 < (sentMessages content).length →
      (sentMessages content)[j]? = some m → 4000 < m.length) := by
  have hsplit : splitMessages content = chunksBy4000 content := by
    simp [splitMessages, Nat.not_le.mpr h]
  have hsent : ∀ (j : Nat) (m : List Char), (sentMessages content)[j]? = some m →
      j < numChunks content.length ∧
      m = (if 1 + j = 1 then (content.drop (4000 * j)).take 4000
           else partMarker (1 + j) ++ (content.drop (4000 * j)).take 4000) := by
    intro j m hm
    rw [sentMessages, hsplit, addMarkers_getElem?, chunksBy4000_getElem? content j] at hm
    by_cases hj : j < numChunks content.length
    · simp only [if_pos hj, Option.map_some'] at hm
      exact ⟨hj, (Option.some.inj hm).symm⟩
    · simp [if_neg hj] at hm
  constructor
  · intro j m hm
    obtain ⟨hj, hmeq⟩ := hsent j m hm
    subst hmeq
    by_cases hj1 : 1 + j = 1
    · simp only [if_pos hj1]
      have : ((content.drop (4000 * j)).take 4000).length ≤ 4000 := by
        simp [List.length_take]
      omega
    · simp only [if_neg hj1, List.length_append]
      have h1 : ((content.drop (4000 * j)).take 4000).length ≤ 4000 := by
        simp [List.length_take]
      have h2 : 1 + j = j + 1 := by omega
      rw [h2]
      omega
  · intro j m hj0 hjlast hm
    obtain ⟨hj, hmeq⟩ := hsent j m hm
    have hj1 : ¬ (1 + j = 1) := by omega
    rw [if_neg hj1] at hmeq
    subst hmeq
    have hlen : (sentMessages content).length = numChunks content.length := by
      rw [sentMessages, hsplit, addMarkers_length, chunksBy4000_length]
    rw [hlen] at hjlast
    have hfull : ((content.drop (4000 * j)).take 4000).length = 4000 := by
      simp only [List.length_take, List.length_drop]
      unfold numChunks at hjlast
      omega
    have hpos : 0 < (partMarker (1 + j)).length := by
      rw [partMarker_length]
      omega
    simp only [List.length_append]
    omega

lemma addMarkers_pair (m1 m2 : List Char) :
    addMarkers 1 [m1, m2] = [m1, partMarker 2 ++ m2] := by
  simp [addMarkers]

lemma addMarkers_triple (m1 m2 m3 : List Char) :
    addMarkers 1 [m1, m2, m3] = [m1, partMarker 2 ++ m2, partMarker 3 ++ m3] := by
  simp [addMarkers]

lemma chunksBy4000_rep4001 :
    chunksBy4000 (List.replicate 4001 'a') =
      [List.replicate 4000 'a', List.replicate 1 'a'] := by
  have hn : numChunks (List.replicate 4001 'a').length = 2 := by
    simp only [List.length_replicate]
    norm_num [numChunks]
  have hr : List.range 2 = [0, 1] := by decide
  have e1 : (4000 : Nat) ⊓ 4001 = 4000 := by omega
  have e2 : (4000 : Nat) ⊓ (4001 - 4000) = 1 := by omega
  rw [chunksBy4000, hn, hr, List.map_cons, List.map_cons, List.map_nil,
    Nat.mul_zero, Nat.mul_one, List.drop_zero, List.take_replicate,
    List.drop_replicate, List.take_replicate, e1, e2]

lemma sentMessages_rep4001 :
    sentMessages (List.replicate 4001 'a') =
      [List.replicate 4000 'a', partMarker 2 ++ List.replicate 1 'a'] := by
  have hgt : ¬ (List.replicate 4001 'a').length ≤ 4000 := by
    simp only [List.length_replicate]; omega
  rw [sentMessages, splitMessages, if_neg hgt, chunksBy4000_rep4001,
    addMarkers_pair]

lemma chunksBy4000_rep8001 :
    chunksBy4000 (List.replicate 8001 'a') =
      [List.replicate 4000 'a', List.replicate 4000 'a', List.replicate 1 'a'] := by
  have hn : numChunks (List.replicate 8001 'a').length = 3 := by
    simp only [List.length_replicate]
    norm_num [numChunks]
  have hr : List.range 3 = [0, 1, 2] := by decide
  have e1 : (4000 : Nat) ⊓ 8001 = 4000 := by omega
  have e2 : (4000 : Nat) ⊓ (8001 - 4000) = 4000 := by omega
  have e3 : (4000 : Nat) ⊓ (8001 - 8000) = 1 := by omega
  rw [chunksBy4000, hn, hr, List.map_cons, List.map_cons, List.map_cons,
    List.map_nil, Nat.mul_zero, Nat.mul_one, List.drop_zero,
    List.take_replicate, List.drop_replicate, List.take_replicate,
    show 4000 * 2 = 8000 from rfl, List.drop_replicate, List.take_replicate,
    e1, e2, e3]

lemma sentMessages_rep8001 :
    sentMessages (List.replicate 8001 'a') =
      [List.replicate 4000 'a', partMarker 2 ++ List.replicate 4000 'a',
        partMarker 3 ++ List.replicate 1 'a'] := by
  have hgt : ¬ (List.replicate 8001 'a').length ≤ 4000 := by
    simp only [List.length_replicate]; omega
  rw [sentMessages, splitMessages, if_neg hgt, chunksBy4000_rep8001,
    addMarkers_triple]

/-- C10 counterexample: for the 4001-unit document, the second (and last)
delivered message is the part-2 marker plus a single unit — 15 units, not
more than 4000 — so it is false that every message after the first
exceeds the 4000-unit threshold. -/
theorem c10_counterexample :
    4000 < (List.replicate 4001 'a').length ∧
    (sentMessages (List.replicate 4001 'a'))[1]? = some (partMarker 2 ++ ['a']) ∧
    ¬ 4000 < (partMarker 2 ++ ['a']).length := by
  refine ⟨by simp only [List.length_replicate]; omega, ?_, by decide⟩
  rw [sentMessages_rep4001, List.getElem?_cons_succ, List.getElem?_cons_zero,
    List.replicate_one]

/-- C10 witness: the amended theorem applied to an 8001-unit document,
whose middle message is a full chunk plus the part-2 marker. -/
theorem c10_witness :
    (partMarker 2 ++ List.replicate 4000 'a').length ≤ 4000 + (partMarker 2).length ∧
    4000 < (partMarker 2 ++ List.replicate 4000 'a').length := by
  have h : 4000 < (List.replicate 8001 'a').length := by
    simp only [List.length_replicate]; omega
  have hget : (sentMessages (List.replicate 8001 'a'))[1]? =
      some (partMarker 2 ++ List.replicate 4000 'a') := by
    rw [sentMessages_rep8001, List.getElem?_cons_succ, List.getElem?_cons_zero]
  have hlen : (sentMessages (List.replicate 8001 'a')).length = 3 := by
    rw [sentMessages_rep8001, List.length_cons, List.length_cons,
      List.length_cons, List.length_nil]
  exact ⟨(c10_amended (List.replicate 8001 'a') h).1 1 _ hget,
    (c10_amended (List.replicate 8001 'a') h).2 1 _ (by omega) (by rw [hlen]; omega) hget⟩

lemma resolveList_cons_in_range (articles : List Article) (s : Nat)
    (rest : List Json) (tl : List Article) (hs : s < articles.length)
    (hrest : resolveList articles rest = .ok tl) :
    resolveList articles (Json.jint (s : Int) :: rest) =
      .ok (articles.getD s default :: tl) := by
  have hlt : (s : Int) < (articles.length : Int) := by exact_mod_cast hs
  have hd : decide ((s : Int) < ((articles.length : Nat) : Int)) = true :=
    decide_eq_true hlt
  have h0 : ¬ ((s : Int) < 0) := by omega
  have hidx : pyIndexOf articles.length (s : Int) = (s : Int) := by
    simp [pyIndexOf, h0]
  simp only [resolveList, pyLtInt, hd, pyGetItem, hidx, Int.toNat_natCast, hrest]
  rw [if_pos ⟨Int.natCast_nonneg s, hlt⟩]

lemma resolveList_range' (articles : List Article) :
    ∀ (k s : Nat), s + k ≤ articles.length →
      resolveList articles
          ((List.range' s k).map (fun i : Nat => Json.jint (i : Int))) =
        .ok ((articles.drop s).take k) := by
  intro k
  induction k with
  | zero => intro s hs; simp [resolveList]
  | succ k ih =>
    intro s hs
    rw [List.range'_succ, List.map_cons]
    have hs' : s < articles.length := by omega
    rw [resolveList_cons_in_range articles s _ _ hs' (ih (s + 1) (by omega))]
    have hdrop : articles.drop s = articles[s] :: articles.drop (s + 1) :=
      List.drop_eq_getElem_cons hs'
    rw [hdrop, List.take_succ_cons, List.getD_eq_getElem articles default hs']

lemma resolve_fallback (articles : List Article) :
    resolveIndices articles (fallbackIndices articles.length) =
      .ok (articles.take 3) := by
  rw [fallbackIndices, resolveIndices]
  simp only [pyIterE]
  rw [List.range_eq_range']
  rw [resolveList_range' articles (min 3 articles.length) 0 (by omega)]
  rw [List.drop_zero]
  rw [← List.take_take, List.take_length]

/-- C2 amended: a raised relevance call, a response that is not valid
JSON, or parsed JSON with no length (an integer, boolean or null) is
recovered inside the try block and yields the deterministic fallback
selection (the first min(3, N) articles); but parsed JSON that has a
length yet is not a list of integers is NOT recovered: a non-empty JSON
string reaches the resolution comprehension outside the try block and
raises an unhandled TypeError that propagates to the caller. -/
theorem c2_amended (articles : List Article) :
    filterStage articles FilterOutcome.callError = .ok (articles.take 3) ∧
    filterStage articles FilterOutcome.badText = .ok (articles.take 3) ∧
    (∀ j : Json, pyLen j = none →
      filterStage articles (FilterOutcome.parsed j) = .ok (articles.take 3)) ∧
    (∀ (c : Char) (s : List Char),
      filterStage articles (FilterOutcome.parsed (Json.jstr (String.mk (c :: s)))) =
        .error .typeError) := by
  have hfb := resolve_fallback articles
  refine ⟨hfb, hfb, ?_, ?_⟩
  · intro j hj
    simp only [filterStage, relevantIndices, hj]
    exact hfb
  · intro c s
    rfl

/-- C2 counterexample: a relevance response that parses as the JSON
string "ab" — valid JSON but not an integer list — is not turned into the
fallback selection; the filter stage raises an unhandled TypeError
instead of recovering, contradicting the claim that every such outcome is
recovered locally and that the run continues. -/
theorem c2_counterexample :
    filterStage [articleEx] (FilterOutcome.parsed (Json.jstr (String.mk ['a', 'b']))) =
      .error .typeError := rfl

/-- C2 witness: concrete instantiations of the amended theorem's
conditional parts. -/
theorem c2_witness :
    pyLen Json.jnull = none ∧
    filterStage [articleEx] (FilterOutcome.parsed Json.jnull) = .ok [articleEx] ∧
    filterStage [articleEx] (FilterOutcome.parsed (Json.jstr (String.mk ['x']))) =
      .error .typeError :=
  ⟨rfl, (c2_amended [articleEx]).2.2.1 Json.jnull rfl,
    (c2_amended [articleEx]).2.2.2 'x' []⟩

lemma pyGetItem_mem (articles : List Article) (e : Json) (a : Article)
    (h : pyGetItem articles e = .ok a) : a ∈ articles := by
  cases e with
  | jint n =>
    simp only [pyGetItem] at h
    split_ifs at h with h1
    · have hok := Except.ok.inj h
      have hlt : (pyIndexOf articles.length n).toNat < articles.length := by
        have h2 := h1.1
        have h3 := h1.2
        omega
      rw [List.getD_eq_getElem articles default hlt] at hok
      rw [← hok]
      exact articles.getElem_mem hlt
  | jbool b =>
    cases b with
    | true =>
      rw [show pyGetItem articles (Json.jbool true) =
          (if (1 : Int) < (articles.length : Int) then
            .ok (articles.getD (1 : Int).toNat default)
          else .error .indexError) from rfl] at h
      split_ifs at h with h1
      · have hok := Except.ok.inj h
        have hlt : (1 : Int).toNat < articles.length := by omega
        rw [List.getD_eq_getElem articles default hlt] at hok
        rw [← hok]
        exact articles.getElem_mem hlt
    | false =>
      rw [show pyGetItem articles (Json.jbool false) =
          (if (0 : Int) < (articles.length : Int) then
            .ok (articles.getD (0 : Int).toNat default)
          else .error .indexError) from rfl] at h
      split_ifs at h with h1
      · have hok := Except.ok.inj h
        have hlt : (0 : Int).toNat < articles.length := by omega
        rw [List.getD_eq_getElem articles default hlt] at hok
        rw [← hok]
        exact articles.getElem_mem hlt
  | jnull => exact absurd h (by simp [pyGetItem])
  | jfloat q => exact absurd h (by simp [pyGetItem])
  | jstr s => exact absurd h (by simp [pyGetItem])
  | jarr xs => exact absurd h (by simp [pyGetItem])
  | jobj fs => exact absurd h (by simp [pyGetItem])

lemma resolveList_mem (articles : List Article) :
    ∀ (elems : List Json) (res : List Article),
      resolveList articles elems = .ok res → ∀ a ∈ res, a ∈ articles := by
  intro elems
  induction elems with
  | nil =>
    intro res h a ha
    simp only [resolveList] at h
    rw [← Except.ok.inj h] at ha
    simp at ha
  | cons e tl ih =>
    intro res h a ha
    cases hlt : pyLtInt e articles.length with
    | none => simp [resolveList, hlt] at h
    | some b =>
      cases b with
      | false =>
        simp only [resolveList, hlt] at h
        exact ih res h a ha
      | true =>
        cases hget : pyGetItem articles e with
        | error err => simp [resolveList, hlt, hget] at h
        | ok a0 =>
          cases htl : resolveList articles tl with
          | error err => simp [resolveList, hlt, hget, htl] at h
          | ok l0 =>
            simp only [resolveList, hlt, hget, htl] at h
            rw [← Except.ok.inj h] at ha
            rcases List.mem_cons.mp ha with rfl | ha0
            · exact pyGetItem_mem articles e a hget
            · exact ih l0 htl a ha0

/-- C7 counterexample: with a one-article batch, the filter index -2 is
out of range but is not silently dropped — the resolution comprehension
raises an unhandled IndexError, so it is false that every out-of-range
index is silently dropped. -/
theorem c7_counterexample :
    resolveIndices [articleEx] (Json.jarr [Json.jint (-2)]) =
      .error .indexError := rfl

/-- C7 amended: the resolution guard silently drops only indices ≥ N;
whenever resolution succeeds, every resolved article is an element of the
batch (negative indices in [-N, 0) pass the guard and resolve from the
end of the batch); but an index < -N passes the guard, and the indexing
then raises an unhandled IndexError instead of dropping it. -/
theorem c7_amended (articles : List Article) (n : Int) (rest : List Json) :
    ((articles.length : Int) ≤ n →
      resolveList articles (Json.jint n :: rest) = resolveList articles rest) ∧
    (n < -(articles.length : Int) →
      resolveList articles (Json.jint n :: rest) = .error .indexError) ∧
    (∀ (elems : List Json) (res : List Article),
      resolveList articles elems = .ok res → ∀ a ∈ res, a ∈ articles) := by
  refine ⟨?_, ?_, resolveList_mem articles⟩
  · intro h
    have hd : decide (n < ((articles.length : Nat) : Int)) = false := by
      rw [decide_eq_false_iff_not]
      omega
    simp only [resolveList, pyLtInt, hd]
  · intro h
    have hN0 : (0 : Int) ≤ (articles.length : Int) := Int.natCast_nonneg _
    have hd : decide (n < ((articles.length : Nat) : Int)) = true := by
      rw [decide_eq_true_eq]
      omega
    have hneg : n < 0 := by omega
    have hidx : pyIndexOf articles.length n = (articles.length : Int) + n := by
      simp [pyIndexOf, hneg]
    have hcond : ¬ (0 ≤ pyIndexOf articles.length n ∧
        pyIndexOf articles.length n < (articles.length : Int)) := by
      rw [hidx]
      omega
    simp only [resolveList, pyLtInt, hd, pyGetItem, if_neg hcond]

/-- C7 witness: the amended theorem's parts at concrete inputs. -/
theorem c7_witness :
    resolveList [articleEx] [Json.jint 5] = resolveList [articleEx] [] ∧
    resolveList [articleEx] [Json.jint (-3)] = .error .indexError ∧
    articleEx ∈ [articleEx] :=
  ⟨(c7_amended [articleEx] 5 []).1 (by decide),
    (c7_amended [articleEx] (-3) []).2.1 (by decide),
    (c7_amended [articleEx] 0 []).2.2 [Json.jint 0] [articleEx] rfl articleEx
      (by simp)⟩

/-- C3 counterexample: an identifier supplied both through the
environment's main chat-id variable and through the config list survives
assembly twice, so the assembled recipient list is not duplicate-free. -/
theorem c3_counterexample :
    allChatIds ⟨some "123", fun _ => none⟩ ["123"] = ["123", "123"] ∧
    ¬ (allChatIds ⟨some "123", fun _ => none⟩ ["123"]).Nodup := by
  constructor
  · decide
  · decide

/-- C3 amended: every identifier in the assembled recipient list is
non-empty and does not start with the "CHAT_ID_" placeholder — but the
list is not deduplicated: an identifier present in both sources appears
twice. -/
theorem c3_amended (env : TelegramEnv) (config_ids : List String) :
    ∀ cid ∈ allChatIds env config_ids,
      cid ≠ "" ∧ strStarts "CHAT_ID_" cid = false := by
  intro cid hcid
  rw [allChatIds] at hcid
  have hp := (List.mem_filter.mp hcid).2
  rw [Bool.and_eq_true] at hp
  refine ⟨of_decide_eq_true hp.1, ?_⟩
  have h2 := hp.2
  rwa [Bool.not_eq_true'] at h2

/-- C3 witness: the amended theorem at a concrete recipient. -/
theorem c3_witness :
    "123" ∈ allChatIds ⟨some "123", fun _ => none⟩ [] ∧
    ("123" ≠ "" ∧ strStarts "CHAT_ID_" "123" = false) :=
  ⟨by decide, c3_amended ⟨some "123", fun _ => none⟩ [] "123" (by decide)⟩

lemma hasPrefixSeq_self_append (pat ys : List Char) :
    hasPrefixSeq pat (pat ++ ys) = true := by
  induction pat with
  | nil => simp [hasPrefixSeq]
  | cons p ps ih => simp [hasPrefixSeq, ih]

lemma containsSeq_self_append (pat ys : List Char) :
    containsSeq pat (pat ++ ys) = true := by
  cases pat with
  | nil =>
    cases ys with
    | nil => rfl
    | cons y ys => simp [containsSeq, hasPrefixSeq]
  | cons p ps =>
    simp only [List.cons_append, containsSeq]
    rw [Bool.or_eq_true]
    left
    exact hasPrefixSeq_self_append (p :: ps) ys

lemma containsSeq_append_left (pat l : List Char) (h : containsSeq pat l = true) :
    ∀ xs : List Char, containsSeq pat (xs ++ l) = true := by
  intro xs
  induction xs with
  | nil => simpa using h
  | cons x xs ih => simp [List.cons_append, containsSeq, ih]

lemma containsSeq_of_decomp (pat l xs ys : List Char)
    (h : l = xs ++ (pat ++ ys)) : containsSeq pat l = true := by
  subst h
  exact containsSeq_append_left pat (pat ++ ys) (containsSeq_self_append pat ys) xs

/-- The part of a report section that follows the section's fixed
"## 📰 Artikel i: " opening: the article title, a blank line, the raw
generated content, and the delimiter. -/
def sectionTail (d : Draft) : List Char :=
  d.article.title.toList ++ "\n\n".toList ++ d.content.toList ++ "\n\n---\n\n".toList

lemma sectionBlock_decomp (i : Nat) (d : Draft) :
    sectionBlock i d =
      ("## 📰 Artikel ".toList ++ (toString i).toList ++ ": ".toList) ++
        sectionTail d := by
  simp [sectionBlock, sectionTail, List.append_assoc]

lemma sectionsFrom_decomp : ∀ (drafts : List Draft) (i : Nat) (d : Draft),
    d ∈ drafts → ∃ xs ys, sectionsFrom i drafts = xs ++ (sectionTail d ++ ys) := by
  intro drafts
  induction drafts with
  | nil => intro i d hd; simp at hd
  | cons d0 rest ih =>
    intro i d hd
    rcases List.mem_cons.mp hd with h | h
    · subst h
      refine ⟨"## 📰 Artikel ".toList ++ (toString i).toList ++ ": ".toList,
        sectionsFrom (i + 1) rest, ?_⟩
      rw [sectionsFrom, sectionBlock_decomp]
      simp [List.append_assoc]
    · obtain ⟨xs, ys, hxs⟩ := ih (i + 1) d h
      refine ⟨sectionBlock i d0 ++ xs, ys, ?_⟩
      rw [sectionsFrom, hxs]
      simp [List.append_assoc]

/-- C8 amended: the rendered report starts with the fixed header carrying
the generation title and timestamp, and holds one section per draft
containing that draft's article title and raw generated content followed
by the "---" delimiter; the article's source link and published date are
NOT rendered by the writer (they can only appear if the model echoed them
inside the content). -/
theorem c8_amended (ts : String) (drafts : List Draft) :
    containsSeq (reportHeader ts) (renderReport ts drafts) = true ∧
    ∀ d ∈ drafts, containsSeq (sectionTail d) (renderReport ts drafts) = true := by
  constructor
  · exact containsSeq_of_decomp (reportHeader ts) (renderReport ts drafts) []
      (sectionsFrom 1 drafts) (by simp [renderReport])
  · intro d hd
    obtain ⟨xs, ys, hxs⟩ := sectionsFrom_decomp drafts 1 d hd
    exact containsSeq_of_decomp (sectionTail d) (renderReport ts drafts)
      (reportHeader ts ++ xs) ys (by simp [renderReport, hxs, List.append_assoc])

/-- C8 counterexample: for a draft whose article has link "LNK123" and
published date "PUB456", and whose generated content does not mention
them, the rendered document contains neither — the writer renders only
the title and the raw content, contradicting the claim that each section
contains the source link and published date. -/
theorem c8_counterexample :
    containsSeq "LNK123".toList
      (renderReport "TS" [⟨⟨"T", "LNK123", "PUB456", "S"⟩, "C"⟩]) = false ∧
    containsSeq "PUB456".toList
      (renderReport "TS" [⟨⟨"T", "LNK123", "PUB456", "S"⟩, "C"⟩]) = false := by
  constructor
  · decide
  · decide

/-- C8 witness: the amended theorem at a concrete draft list. -/
theorem c8_witness :
    containsSeq (sectionTail ⟨articleEx, "C"⟩)
      (renderReport "TS" [⟨articleEx, "C"⟩]) = true :=
  (c8_amended "TS" [⟨articleEx, "C"⟩]).2 ⟨articleEx, "C"⟩ (by simp)

lemma analyze_events (o : RunEnv) (articles : List Article) :
    ∀ e ∈ (analyzeWithClaude o articles).1,
      e = Event.filterCall ∨ ∃ a, e = Event.genCall a := by
  intro e he
  cases hk : o.api_key with
  | none => simp [analyzeWithClaude, hk] at he
  | some k =>
    cases hf : filterStage articles o.outcome with
    | error err =>
      simp only [analyzeWithClaude, hk, hf, List.mem_singleton] at he
      exact Or.inl he
    | ok relevant =>
      by_cases hrel : relevant = []
      · simp only [analyzeWithClaude, hk, hf, if_pos hrel, List.mem_singleton] at he
        exact Or.inl he
      · simp only [analyzeWithClaude, hk, hf, if_neg hrel, List.mem_cons,
          List.mem_map] at he
        rcases he with h | ⟨a, _, rfl⟩
        · exact Or.inl h
        · exact Or.inr ⟨a, rfl⟩

/-- Claim C9: the orchestrator short-circuits — an empty fetched batch
produces no externally visible action at all (in particular no model
call); and when the analysis stage returns no drafts (None or an empty
list), the run writes no document and makes no delivery call: every event
of the run is a model call, never a file write or a delivery. -/
theorem c9_short_circuit (o : RunEnv) :
    mainTrace o [] = [] ∧
    ∀ (articles : List Article) (evs : List Event)
      (res : Except PyErr (Option (List Draft))),
      analyzeWithClaude o articles = (evs, res) →
      res = .ok none ∨ res = .ok (some []) →
      ∀ e ∈ mainTrace o articles,
        (∀ doc, e ≠ Event.fileWrite doc) ∧ (∀ c m, e ≠ Event.deliver c m) := by
  constructor
  · simp [mainTrace]
  · intro articles evs res hEq hres e he
    by_cases ha : articles = []
    · subst ha
      simp [mainTrace] at he
    · have htrace : mainTrace o articles = evs := by
        rcases hres with rfl | rfl
        · simp [mainTrace, ha, hEq, saveResults]
        · simp [mainTrace, ha, hEq, saveResults]
      rw [htrace] at he
      have hshape := analyze_events o articles e (by rw [hEq]; exact he)
      rcases hshape with rfl | ⟨a, rfl⟩
      · exact ⟨fun doc => by simp, fun c m => by simp⟩
      · exact ⟨fun doc => by simp, fun c m => by simp⟩

/-- A concrete run environment for instantiations: no API key, so the
analysis stage returns None without any call. -/
def runEnvEx : RunEnv :=
  ⟨none, FilterOutcome.callError, fun _ _ => none, 5, none,
    ⟨none, fun _ => none⟩, [], fun _ _ => 0, "TS"⟩

/-- C9 witness: a run whose analysis returns None makes no file write and
no delivery. -/
theorem c9_witness :
    analyzeWithClaude runEnvEx [articleEx] = ([], .ok none) ∧
    ∀ e ∈ mainTrace runEnvEx [articleEx],
      (∀ doc, e ≠ Event.fileWrite doc) ∧ (∀ c m, e ≠ Event.deliver c m) :=
  ⟨rfl, fun e he =>
    (c9_short_circuit runEnvEx).2 [articleEx] [] (.ok none) rfl (Or.inl rfl) e he⟩

end ContentPipeline
